import Mathlib

/-!
Verification of the chunked event-fetching logic of the seisei front-end.

The repository contains two React components (`CombinedGameEvents` and
`PlayerEvents`) that poll a JSON-RPC endpoint for `Roll` event logs in
chunked block-range windows, decode each log, optionally filter by player
address, attach block timestamps, and display a sorted, capped list.

This file embeds that logic shallowly:
* block numbers are integers (`ℤ` for window arithmetic, since the raw
  `chunkStart` expression can go negative in JavaScript before being
  clamped with `Math.max`);
* the RPC provider is an oracle function passed as a parameter;
* fallible provider calls return `Except String`, a thrown exception being
  an `Except.error`;
* a `null` result of `provider.getBlock` is an `Option.none`;
* JavaScript `Number(bigint)` conversion is modelled by `jsNumberOfNat`
  (round-to-nearest, ties-to-even at 53 significant bits).
-/

/-- Constant from both components: `POLLING_INTERVAL = 10000`. -/
def POLLING_INTERVAL : ℕ := 10000

/-- Constant from both components: `TOTAL_BLOCKS_TO_CHECK = 2000`. -/
def TOTAL_BLOCKS_TO_CHECK : ℕ := 2000

/-- Constant from both components: `MAX_CHUNK_SIZE = 450`. -/
def MAX_CHUNK_SIZE : ℕ := 450

/-- Result cap of the combined view (`MAX_RESULTS = 50` in `CombinedGameEvents`). -/
def MAX_RESULTS_COMBINED : ℕ := 50

/-- Result cap of the player view (`MAX_RESULTS = 20` in `PlayerEvents`). -/
def MAX_RESULTS_PLAYER : ℕ := 20

/-- Contract address of the dice game (`DICE_CONTRACT_ADDRESS`). -/
def DICE_CONTRACT_ADDRESS : String := "0xd60aF0bbE2C6EFeD5651Ef48feb0BF0d77323D9e"

/-- Contract address of the coin-flip game (`COINFLIP_CONTRACT_ADDRESS`). -/
def COINFLIP_CONTRACT_ADDRESS : String := "0xD0F83311d99e2DeC0517f49d31e1971590D5C09C"

/-- Number of chunked queries issued by one fetch cycle.  Source
(`part_000` lines 63-64, `part_001` lines 74-75):
`totalBlocksToScan = latestBlock - startBlock;`
`chunksNeeded = Math.ceil(totalBlocksToScan / MAX_CHUNK_SIZE)`.
Ceiling division of naturals, assuming `maxSpan > 0` (the code always uses
`MAX_CHUNK_SIZE = 450`). -/
def chunksNeeded (startBlock latestBlock maxSpan : ℕ) : ℕ :=
  (latestBlock - startBlock + maxSpan - 1) / maxSpan

/-- The `i`-th query window of the fetch loop.  Source (`part_000`
lines 70-74, `part_001` lines 81-85):
`chunkStart = latestBlock - (i * MAX_CHUNK_SIZE) - MAX_CHUNK_SIZE;`
`chunkEnd = latestBlock - (i * MAX_CHUNK_SIZE);`
`fromBlock = Math.max(chunkStart, startBlock); toBlock = chunkEnd;`.
The pair is `(fromBlock, toBlock)`; intermediate values are integers
because `chunkStart` may be negative before the `Math.max` clamp. -/
def chunkWindow (startBlock latestBlock maxSpan : ℕ) (i : ℕ) : ℤ × ℤ :=
  (max ((latestBlock : ℤ) - (i : ℤ) * (maxSpan : ℤ) - (maxSpan : ℤ)) (startBlock : ℤ),
   (latestBlock : ℤ) - (i : ℤ) * (maxSpan : ℤ))

/-- All query windows of one fetch cycle, in issue order (most recent
window first), i.e. the windows of the loop
`for (let i = 0; i < chunksNeeded; i++)`. -/
def chunkWindows (startBlock latestBlock maxSpan : ℕ) : List (ℤ × ℤ) :=
  (List.range (chunksNeeded startBlock latestBlock maxSpan)).map
    (chunkWindow startBlock latestBlock maxSpan)

/-- C2 counterexample: for range 0-2000 with maxSpan 450 the loop does
not produce the window list claimed by the spec; the second window is
`[1100, 1550]`, not `[1100, 1549]` (and similarly for the later ones):
consecutive windows share their boundary block. -/
theorem c2_windows_cex :
    chunkWindows 0 2000 450 ≠
      [(1550, 2000), (1100, 1549), (650, 1099), (200, 649), (0, 199)] := by
  decide

/-- C2 (amended): for startBlock 0, latestBlock 2000 and maxSpan 450 the
fetch loop generates exactly 5 windows, in this order:
`[1550,2000], [1100,1550], [650,1100], [200,650], [0,200]`. -/
theorem c2_windows :
    chunkWindows 0 2000 450 =
      [(1550, 2000), (1100, 1550), (650, 1100), (200, 650), (0, 200)] := by
  decide

/-- Arithmetic helper: a natural number is below the next multiple of `C`
above its floor division by `C`. -/
lemma lt_mul_div_succ (a C : ℕ) (hC : 0 < C) : a < C * (a / C + 1) := by
  conv_lhs => rw [← Nat.div_add_mod a C]
  rw [Nat.mul_succ]
  exact Nat.add_lt_add_left (Nat.mod_lt _ hC) _

/-- The chunk count times the chunk size covers the whole scanned span. -/
lemma chunksNeeded_mul_ge (S L C : ℕ) (hC : 0 < C) :
    L - S ≤ chunksNeeded S L C * C := by
  have h := lt_mul_div_succ (L - S + C - 1) C hC
  rw [Nat.mul_succ] at h
  unfold chunksNeeded
  rw [Nat.mul_comm]
  set t := C * ((L - S + C - 1) / C) with ht
  omega

/-- Closed form of `chunksNeeded` on a non-empty span. -/
lemma chunksNeeded_eq (S L C : ℕ) (hC : 0 < C) (hSL : S < L) :
    chunksNeeded S L C = (L - S - 1) / C + 1 := by
  unfold chunksNeeded
  have h : L - S + C - 1 = (L - S - 1) + C := by omega
  rw [h, Nat.add_div_right _ hC]

/-- A chunk index in range scans strictly inside the span. -/
lemma index_mul_lt (S L C : ℕ) (hC : 0 < C) {i : ℕ}
    (hi : i < chunksNeeded S L C) : i * C < L - S := by
  rcases Nat.eq_zero_or_pos (L - S) with ha | ha
  · exfalso
    have hz : chunksNeeded S L C = 0 := by
      unfold chunksNeeded
      rw [ha, Nat.zero_add]
      exact Nat.div_eq_of_lt (by omega)
    omega
  · have hSL : S < L := by omega
    have key := chunksNeeded_eq S L C hC hSL
    set d := (L - S - 1) / C with hd
    rw [key] at hi
    have h3 : i * C ≤ d * C := Nat.mul_le_mul_right _ (by omega)
    have h4 : d * C ≤ L - S - 1 := hd ▸ Nat.div_mul_le_self _ _
    exact lt_of_le_of_lt (le_trans h3 h4) (by omega)

/-- Bounds of a single generated window: it starts at or after
`startBlock`, ends at or before `latestBlock`, is non-empty, and spans at
most `maxSpan + 1` blocks (difference of endpoints at most `maxSpan`). -/
lemma chunkWindow_facts (S L C : ℕ) (hC : 0 < C) {i : ℕ}
    (hi : i < chunksNeeded S L C) :
    (S : ℤ) ≤ (chunkWindow S L C i).1 ∧
    (chunkWindow S L C i).1 ≤ (chunkWindow S L C i).2 ∧
    (chunkWindow S L C i).2 ≤ (L : ℤ) ∧
    (chunkWindow S L C i).2 - (chunkWindow S L C i).1 ≤ (C : ℤ) ∧
    (S : ℤ) < (chunkWindow S L C i).2 := by
  have hmul := index_mul_lt S L C hC hi
  have hSL : S < L := by omega
  zify [Nat.le_of_lt hSL] at hmul
  have hnn : (0 : ℤ) ≤ (i : ℤ) * (C : ℤ) := by positivity
  simp only [chunkWindow]
  refine ⟨le_max_right _ _, max_le (by linarith) (by linarith), by linarith,
    ?_, by linarith⟩
  have := le_max_left ((L : ℤ) - (i : ℤ) * (C : ℤ) - (C : ℤ)) ((S : ℤ))
  linarith

/-- Window membership characterization. -/
lemma mem_chunkWindows (S L C : ℕ) {w : ℤ × ℤ} :
    w ∈ chunkWindows S L C ↔
      ∃ i < chunksNeeded S L C, chunkWindow S L C i = w := by
  simp [chunkWindows, List.mem_map, List.mem_range]

/-- Every block of a non-empty scanned range lies in some window. -/
lemma chunkWindows_cover (S L C : ℕ) (hC : 0 < C) (hSL : S < L)
    {b : ℤ} (hb1 : (S : ℤ) ≤ b) (hb2 : b ≤ (L : ℤ)) :
    ∃ w ∈ chunkWindows S L C, w.1 ≤ b ∧ b ≤ w.2 := by
  obtain ⟨bn, rfl⟩ : ∃ bn : ℕ, b = (bn : ℤ) :=
    ⟨b.toNat, (Int.toNat_of_nonneg (le_trans (by positivity) hb1)).symm⟩
  have hbn1 : S ≤ bn := by exact_mod_cast hb1
  have hbn2 : bn ≤ L := by exact_mod_cast hb2
  rcases Nat.eq_or_lt_of_le hbn1 with hbS | hbS
  · -- b = startBlock: covered by the last window
    set n := chunksNeeded S L C with hn
    have hnpos : 0 < n := by
      rw [hn, chunksNeeded_eq S L C hC hSL]; exact Nat.succ_pos _
    have hi : n - 1 < n := by omega
    refine ⟨chunkWindow S L C (n - 1), (mem_chunkWindows S L C).mpr ⟨n - 1, hi, rfl⟩, ?_, ?_⟩
    · -- fromBlock of the last window is clamped to startBlock
      have hcov := chunksNeeded_mul_ge S L C hC
      have hcast : ((L : ℤ) - (S : ℤ)) ≤ (n : ℤ) * (C : ℤ) := by
        zify [Nat.le_of_lt hSL] at hcov
        exact hcov
      have hn1 : ((n - 1 : ℕ) : ℤ) = (n : ℤ) - 1 := by
        omega
      simp only [chunkWindow]
      rw [hn1]
      have : (L : ℤ) - ((n : ℤ) - 1) * (C : ℤ) - (C : ℤ) ≤ (S : ℤ) := by ring_nf; linarith [hcast]
      calc max ((L : ℤ) - ((n : ℤ) - 1) * (C : ℤ) - (C : ℤ)) ((S : ℤ)) ≤ (S : ℤ) :=
            max_le this le_rfl
        _ ≤ (bn : ℤ) := by exact_mod_cast hbn1
    · have hf := chunkWindow_facts S L C hC hi
      have : (S : ℤ) < (chunkWindow S L C (n - 1)).2 := hf.2.2.2.2
      have hb : (bn : ℤ) = (S : ℤ) := by exact_mod_cast hbS.symm
      linarith
  · -- b > startBlock: covered by window (L - b) / C
    set i := (L - bn) / C with hidef
    have hin : i < chunksNeeded S L C := by
      rw [chunksNeeded_eq S L C hC hSL]
      have hmono : (L - bn) / C ≤ (L - S - 1) / C :=
        Nat.div_le_div_right (by omega)
      omega
    refine ⟨chunkWindow S L C i, (mem_chunkWindows S L C).mpr ⟨i, hin, rfl⟩, ?_, ?_⟩
    · -- fromBlock ≤ b
      have hup := lt_mul_div_succ (L - bn) C hC
      rw [Nat.mul_succ] at hup
      have hup2 : (L : ℕ) - bn < i * C + C := by
        rw [hidef, Nat.mul_comm]
        omega
      zify [hbn2] at hup2
      simp only [chunkWindow]
      exact max_le (by linarith) (by exact_mod_cast Nat.le_of_lt hbS)
    · -- b ≤ toBlock
      have hdn : i * C ≤ L - bn := hidef ▸ Nat.div_mul_le_self _ _
      zify [hbn2] at hdn
      simp only [chunkWindow]
      linarith

/-- Two distinct windows can share at most one block: the shared block is
simultaneously the lower end of the more recent window and the upper end
of the older one. -/
lemma chunkWindows_almost_disjoint (S L C : ℕ) {i j : ℕ}
    (hij : i < j) {b : ℤ}
    (hbi1 : (chunkWindow S L C i).1 ≤ b) (hbi2 : b ≤ (chunkWindow S L C i).2)
    (hbj1 : (chunkWindow S L C j).1 ≤ b) (hbj2 : b ≤ (chunkWindow S L C j).2) :
    b = (chunkWindow S L C i).1 ∧ b = (chunkWindow S L C j).2 := by
  have h1 : (chunkWindow S L C j).2 ≤ (chunkWindow S L C i).1 := by
    simp only [chunkWindow]
    have hj1 : ((i : ℤ) + 1) * (C : ℤ) ≤ (j : ℤ) * (C : ℤ) := by
      have hle : (i + 1 : ℕ) ≤ j := hij
      have h2 : ((i : ℤ)) + 1 ≤ (j : ℤ) := by exact_mod_cast hle
      exact mul_le_mul_of_nonneg_right h2 (by positivity)
    calc (L : ℤ) - (j : ℤ) * (C : ℤ)
        ≤ (L : ℤ) - ((i : ℤ) + 1) * (C : ℤ) := by linarith
      _ = (L : ℤ) - (i : ℤ) * (C : ℤ) - (C : ℤ) := by ring
      _ ≤ max ((L : ℤ) - (i : ℤ) * (C : ℤ) - (C : ℤ)) ((S : ℤ)) := le_max_left _ _
  exact ⟨le_antisymm (le_trans hbj2 h1) hbi1, le_antisymm hbj2 (le_trans h1 hbi1)⟩

/-- C1 counterexample: at `(startBlock, latestBlock, maxSpan) = (0, 2000, 450)`
the loop generates 5 windows, block 1550 belongs to both window 0 and
window 1 (so the windows overlap and the union does not cover each block
exactly once), and window 0 `[1550, 2000]` contains 451 > 450 blocks. -/
theorem c1_chunkWindows_cex :
    chunksNeeded 0 2000 450 = 5 ∧
    ((chunkWindow 0 2000 450 0).1 ≤ (1550 : ℤ) ∧
      (1550 : ℤ) ≤ (chunkWindow 0 2000 450 0).2) ∧
    ((chunkWindow 0 2000 450 1).1 ≤ (1550 : ℤ) ∧
      (1550 : ℤ) ≤ (chunkWindow 0 2000 450 1).2) ∧
    (chunkWindow 0 2000 450 0).2 - (chunkWindow 0 2000 450 0).1 + 1 = 451 := by
  decide

/-- C1 (amended): for every `(startBlock, latestBlock, maxSpan)` with
`latestBlock ≥ startBlock ≥ 0` and `maxSpan > 0`, (a) every generated
window stays inside `[startBlock, latestBlock]` and spans at most
`maxSpan + 1` blocks (endpoint difference at most `maxSpan`); (b) when
`latestBlock > startBlock`, the union of the windows covers every block of
`[startBlock, latestBlock]` (when `latestBlock = startBlock` no window is
generated); (c) two distinct windows share at most a single block, namely
the lower end of the more recent window, which coincides with the upper
end of the older one — so the windows are not pairwise disjoint, but
overlap only at these boundary blocks. -/
theorem c1_chunkWindows_partition (S L C : ℕ) (hC : 0 < C) (hSL : S ≤ L) :
    (∀ w ∈ chunkWindows S L C,
        (S : ℤ) ≤ w.1 ∧ w.1 ≤ w.2 ∧ w.2 ≤ (L : ℤ) ∧ w.2 - w.1 ≤ (C : ℤ)) ∧
    (S < L → ∀ b : ℤ, (S : ℤ) ≤ b → b ≤ (L : ℤ) →
        ∃ w ∈ chunkWindows S L C, w.1 ≤ b ∧ b ≤ w.2) ∧
    (∀ i j : ℕ, i < j → ∀ b : ℤ,
        (chunkWindow S L C i).1 ≤ b → b ≤ (chunkWindow S L C i).2 →
        (chunkWindow S L C j).1 ≤ b → b ≤ (chunkWindow S L C j).2 →
        b = (chunkWindow S L C i).1 ∧ b = (chunkWindow S L C j).2) := by
  refine ⟨?_, ?_, ?_⟩
  · intro w hw
    obtain ⟨i, hi, rfl⟩ := (mem_chunkWindows S L C).mp hw
    obtain ⟨h1, h2, h3, h4, _⟩ := chunkWindow_facts S L C hC hi
    exact ⟨h1, h2, h3, h4⟩
  · intro hlt b hb1 hb2
    exact chunkWindows_cover S L C hC hlt hb1 hb2
  · intro i j hij b hbi1 hbi2 hbj1 hbj2
    exact chunkWindows_almost_disjoint S L C hij hbi1 hbi2 hbj1 hbj2

/-- Witness for `c1_chunkWindows_partition` at the concrete input
`(0, 2000, 450)` and block 700. -/
theorem c1_chunkWindows_partition_witness :
    (0 : ℕ) < 450 ∧ (0 : ℕ) ≤ 2000 ∧
    (∃ w ∈ chunkWindows 0 2000 450, w.1 ≤ (700 : ℤ) ∧ (700 : ℤ) ≤ w.2) :=
  ⟨by decide, by decide,
    (c1_chunkWindows_partition 0 2000 450 (by decide) (by decide)).2.1
      (by decide) 700 (by decide) (by decide)⟩

/-- Game type tag of the combined view (`gameType: 'dice' | 'coinflip'`). -/
inductive GameType
  | dice
  | coinflip
deriving DecidableEq

/-- A raw log entry as returned by `provider.getLogs` (`ethers.Log`); only
the fields the components read are modelled.  `transactionHash` is
optional because the code defends against its absence with
`log.transactionHash || "unknown"`. -/
structure Log where
  blockNumber : ℤ
  transactionHash : Option String
deriving DecidableEq

/-- Decoded argument tuple of a `Roll` event as produced by
`iface.parseLog` on a log matching the signature
`Roll(address,uint256,uint256,uint256,bool)`: the raw encoded values,
`uint256` values being exact naturals (ethers v6 decodes them to
`bigint`). -/
structure RollArgs where
  player : String
  amount : ℕ
  choice : ℕ
  outcome : ℕ
  won : Bool
deriving DecidableEq

/-- A block as returned by `provider.getBlock`; only `timestamp` is read. -/
structure EthBlock where
  timestamp : ℕ
deriving DecidableEq

/-- The unified `GameEvent` record of `CombinedGameEvents` (`part_000`
lines 6-16). -/
structure GameEvent where
  blockNumber : ℤ
  transactionHash : String
  player : String
  amount : ℕ
  choice : ℕ
  outcome : ℕ
  won : Bool
  gameType : GameType
  timestamp : ℕ
deriving DecidableEq

/-- The `RollEvent` record of `PlayerEvents` (`part_001` lines 5-14). -/
structure RollEvent where
  blockNumber : ℤ
  transactionHash : String
  player : String
  amount : ℕ
  choice : ℕ
  outcome : ℕ
  won : Bool
  timestamp : ℕ
deriving DecidableEq

/-- JavaScript `s || dflt` on an optional string: `dflt` when the string
is absent or empty (both are falsy). -/
def jsStringOr (s : Option String) (dflt : String) : String :=
  match s with
  | none => dflt
  | some v => if v = "" then dflt else v

/-- Number of right shifts needed to bring `n` into 53-bit mantissa range,
i.e. `log2 n - 52` when `2 ^ 53 ≤ n`, else `0`; computed by a bounded scan
so the kernel can evaluate it (correct for `n < 2 ^ 257`, which covers the
whole `uint256` range the decoded values live in). -/
def jsShift (n : ℕ) : ℕ :=
  (List.range 204).foldl (fun acc j => if 2 ^ (53 + j) ≤ n then j + 1 else acc) 0

/-- JavaScript `Number(bigint)` conversion on non-negative values: exact
below `2 ^ 53`, otherwise rounded to 53 significant bits with
round-to-nearest, ties-to-even (IEEE-754 double rounding; every double of
this magnitude is an integer, so the result is again a natural). -/
def jsNumberOfNat (n : ℕ) : ℕ :=
  if n < 2 ^ 53 then n
  else
    let k := jsShift n
    let q := n / 2 ^ k
    let r := n % 2 ^ k
    let half := 2 ^ (k - 1)
    let q2 := if half < r ∨ (r = half ∧ q % 2 = 1) then q + 1 else q
    q2 * 2 ^ k

/-- Below `2 ^ 53` the conversion is the identity. -/
lemma jsNumberOfNat_eq_of_lt {n : ℕ} (h : n < 2 ^ 53) : jsNumberOfNat n = n := by
  unfold jsNumberOfNat
  rw [if_pos h]

/-- Sort comparator of the combined view
(`(a, b) => b.blockNumber - a.blockNumber`): descending by block number. -/
def byBlockDesc (a b : GameEvent) : Bool :=
  decide (b.blockNumber ≤ a.blockNumber)

/-- Sort comparator of the player view, same shape. -/
def byBlockDescRoll (a b : RollEvent) : Bool :=
  decide (b.blockNumber ≤ a.blockNumber)

/-- Merge, sort and truncate of the combined view (`part_000` lines
181-183): `[...diceEvents, ...coinflipEvents].sort(...).slice(0, MAX_RESULTS)`.
JavaScript `Array.prototype.sort` is stable (ES2019), modelled by the
stable `List.mergeSort`. -/
def combinedDisplay (diceEvents coinflipEvents : List GameEvent) : List GameEvent :=
  ((diceEvents ++ coinflipEvents).mergeSort byBlockDesc).take MAX_RESULTS_COMBINED

/-- Sort and truncate of the player view (`part_001` lines 147-149). -/
def playerDisplay (parsedEvents : List RollEvent) : List RollEvent :=
  (parsedEvents.mergeSort byBlockDescRoll).take MAX_RESULTS_PLAYER

/-- C3 (confirmed): for every list of decoded events produced by a fetch
cycle, the list stored for display is sorted descending by block number
and its length is at most the result cap: 50 in the combined view and 20
in the player view. -/
theorem c3_display_sorted_capped (diceEvents coinflipEvents : List GameEvent)
    (parsedEvents : List RollEvent) :
    (combinedDisplay diceEvents coinflipEvents).Pairwise
        (fun a b => b.blockNumber ≤ a.blockNumber) ∧
    (combinedDisplay diceEvents coinflipEvents).length ≤ MAX_RESULTS_COMBINED ∧
    (playerDisplay parsedEvents).Pairwise
        (fun a b => b.blockNumber ≤ a.blockNumber) ∧
    (playerDisplay parsedEvents).length ≤ MAX_RESULTS_PLAYER := by
  have htrans : ∀ a b c : GameEvent, byBlockDesc a b = true →
      byBlockDesc b c = true → byBlockDesc a c = true := by
    intro a b c hab hbc
    simp only [byBlockDesc, decide_eq_true_eq] at *
    exact le_trans hbc hab
  have htotal : ∀ a b : GameEvent, (byBlockDesc a b || byBlockDesc b a) = true := by
    intro a b
    simp only [byBlockDesc, Bool.or_eq_true, decide_eq_true_eq]
    exact le_total _ _
  have htransR : ∀ a b c : RollEvent, byBlockDescRoll a b = true →
      byBlockDescRoll b c = true → byBlockDescRoll a c = true := by
    intro a b c hab hbc
    simp only [byBlockDescRoll, decide_eq_true_eq] at *
    exact le_trans hbc hab
  have htotalR : ∀ a b : RollEvent, (byBlockDescRoll a b || byBlockDescRoll b a) = true := by
    intro a b
    simp only [byBlockDescRoll, Bool.or_eq_true, decide_eq_true_eq]
    exact le_total _ _
  refine ⟨?_, ?_, ?_, ?_⟩
  · have hs := List.sorted_mergeSort htrans htotal (diceEvents ++ coinflipEvents)
    have hp := List.Pairwise.sublist
      (List.take_sublist MAX_RESULTS_COMBINED _) hs
    exact hp.imp (by intro a b h; simpa [byBlockDesc] using h)
  · simp only [combinedDisplay, List.length_take]
    exact min_le_left _ _
  · have hs := List.sorted_mergeSort htransR htotalR parsedEvents
    have hp := List.Pairwise.sublist
      (List.take_sublist MAX_RESULTS_PLAYER _) hs
    exact hp.imp (by intro a b h; simpa [byBlockDescRoll] using h)
  · simp only [playerDisplay, List.length_take]
    exact min_le_left _ _

/-- Processing of one raw log in `fetchEventsForContract` (`part_000`
lines 98-132): decode via `iface.parseLog` (`none` covers both a `null`
result and a thrown decode error, which the `catch` turns into a skip),
player filter (skipped when `currentAccount` is the empty string,
JavaScript falsiness of `''`), block lookup for the timestamp (`none` =
`null` block, skip), then event construction; `uint256` arguments pass
through `Number(...)`, modelled by `jsNumberOfNat`.  Returns `none` when
the log is skipped. -/
def combinedProcessLog (parseLog : Log → Option RollArgs)
    (getBlock : ℤ → Option EthBlock) (currentAccount : String)
    (gameType : GameType) (log : Log) : Option GameEvent :=
  match parseLog log with
  | none => none
  | some args =>
    let player := args.player.toLower
    if currentAccount ≠ "" ∧ player ≠ currentAccount.toLower then none
    else
      match getBlock log.blockNumber with
      | none => none
      | some block =>
        some { blockNumber := log.blockNumber,
               transactionHash := jsStringOr log.transactionHash ("unknown"),
               player := player,
               amount := args.amount,
               choice := jsNumberOfNat args.choice,
               outcome := jsNumberOfNat args.outcome,
               won := args.won,
               gameType := gameType,
               timestamp := block.timestamp }

/-- Processing of one raw log in `fetchRollEvents` (`part_001` lines
110-143).  Differences from the combined view: the player filter is
unconditional (`player !== currentAccount.toLowerCase()`), and the
block-lookup guard also checks the liveness flag
(`if (!block || !isMounted) continue`), passed here as `mounted`. -/
def playerProcessLog (parseLog : Log → Option RollArgs)
    (getBlock : ℤ → Option EthBlock) (mounted : Bool)
    (currentAccount : String) (log : Log) : Option RollEvent :=
  match parseLog log with
  | none => none
  | some args =>
    let player := args.player.toLower
    if player ≠ currentAccount.toLower then none
    else
      match getBlock log.blockNumber with
      | none => none
      | some block =>
        if mounted = false then none
        else
          some { blockNumber := log.blockNumber,
                 transactionHash := jsStringOr log.transactionHash ("unknown"),
                 player := player,
                 amount := args.amount,
                 choice := jsNumberOfNat args.choice,
                 outcome := jsNumberOfNat args.outcome,
                 won := args.won,
                 timestamp := block.timestamp }

/-- The decode loop of the combined view over the accumulated logs
(`for (const log of allLogs) {...}` with per-log skip). -/
def combinedParsedEvents (parseLog : Log → Option RollArgs)
    (getBlock : ℤ → Option EthBlock) (currentAccount : String)
    (gameType : GameType) (allLogs : List Log) : List GameEvent :=
  allLogs.filterMap (combinedProcessLog parseLog getBlock currentAccount gameType)

/-- The decode loop of the player view over the accumulated logs. -/
def playerParsedEvents (parseLog : Log → Option RollArgs)
    (getBlock : ℤ → Option EthBlock) (mounted : Bool)
    (currentAccount : String) (allLogs : List Log) : List RollEvent :=
  allLogs.filterMap (playerProcessLog parseLog getBlock mounted currentAccount)

/-- Concrete log fixture. -/
def logA : Log := { blockNumber := 100, transactionHash := some ("0xt1") }

/-- Second concrete log fixture. -/
def logB : Log := { blockNumber := 101, transactionHash := some ("0xt2") }

/-- Concrete block oracle fixture. -/
def getBlockA (_b : ℤ) : Option EthBlock := some { timestamp := 1700000000 }

/-- Concrete decoder fixture whose `choice` value `2 ^ 53 + 1` is not
exactly representable as a JavaScript number. -/
def parseLogBig (_lg : Log) : Option RollArgs :=
  some { player := "0xAB", amount := 7, choice := 2 ^ 53 + 1, outcome := 3, won := true }

/-- Concrete decoder fixture with small values. -/
def argsSmall : RollArgs :=
  { player := "0xAB", amount := 5, choice := 2, outcome := 3, won := false }

/-- Decoder fixture returning `argsSmall` for every log. -/
def parseLogSmall (_lg : Log) : Option RollArgs := some argsSmall

/-- Decoder fixture that fails on every log. -/
def parseLogNone (_lg : Log) : Option RollArgs := none

set_option maxRecDepth 8000 in
/-- C8 counterexample: a decoded log whose raw `choice` value is
`2 ^ 53 + 1` produces an event whose `choice` field is `2 ^ 53`: the
`Number(parsedLog.args.choice)` conversion rounds values outside the
exactly-representable double range, so the numeric fields do not equal the
raw encoded values for every possible `uint256` value. -/
theorem c8_decode_cex :
    parseLogBig logA =
      some { player := "0xAB", amount := 7, choice := 2 ^ 53 + 1,
             outcome := 3, won := true } ∧
    (combinedProcessLog parseLogBig getBlockA "" GameType.dice logA).map
        GameEvent.choice = some (2 ^ 53) ∧
    (2 ^ 53 : ℕ) ≠ 2 ^ 53 + 1 := by
  refine ⟨rfl, ?_, by decide⟩
  decide

/-- C8 (amended): an event built from a successfully decoded log has
`amount` equal to the raw encoded value exactly (it is kept as a
`bigint`), and `choice` and `outcome` equal to the raw encoded values
whenever those are below `2 ^ 53` (the exactly-representable JavaScript
integer range); the `Number(...)` conversion rounds larger values. -/
theorem c8_decode_faithful (parseLog : Log → Option RollArgs)
    (getBlock : ℤ → Option EthBlock) (currentAccount : String)
    (gameType : GameType) (mounted : Bool) (log : Log) (args : RollArgs)
    (hparse : parseLog log = some args) :
    (∀ ev, combinedProcessLog parseLog getBlock currentAccount gameType log = some ev →
        ev.amount = args.amount ∧
        (args.choice < 2 ^ 53 → ev.choice = args.choice) ∧
        (args.outcome < 2 ^ 53 → ev.outcome = args.outcome)) ∧
    (∀ ev, playerProcessLog parseLog getBlock mounted currentAccount log = some ev →
        ev.amount = args.amount ∧
        (args.choice < 2 ^ 53 → ev.choice = args.choice) ∧
        (args.outcome < 2 ^ 53 → ev.outcome = args.outcome)) := by
  constructor
  · intro ev hev
    simp only [combinedProcessLog, hparse] at hev
    split at hev
    · exact absurd hev (by simp)
    · split at hev
      · exact absurd hev (by simp)
      · obtain rfl := Option.some.inj hev
        exact ⟨rfl, fun h => jsNumberOfNat_eq_of_lt h, fun h => jsNumberOfNat_eq_of_lt h⟩
  · intro ev hev
    simp only [playerProcessLog, hparse] at hev
    split at hev
    · exact absurd hev (by simp)
    · split at hev
      · exact absurd hev (by simp)
      · split at hev
        · exact absurd hev (by simp)
        · obtain rfl := Option.some.inj hev
          exact ⟨rfl, fun h => jsNumberOfNat_eq_of_lt h, fun h => jsNumberOfNat_eq_of_lt h⟩

/-- Witness for `c8_decode_faithful` on concrete fixtures. -/
theorem c8_decode_faithful_witness :
    parseLogSmall logA = some argsSmall ∧
    ((∀ ev, combinedProcessLog parseLogSmall getBlockA "" GameType.dice logA = some ev →
        ev.amount = argsSmall.amount ∧
        (argsSmall.choice < 2 ^ 53 → ev.choice = argsSmall.choice) ∧
        (argsSmall.outcome < 2 ^ 53 → ev.outcome = argsSmall.outcome)) ∧
     (∀ ev, playerProcessLog parseLogSmall getBlockA true "" logA = some ev →
        ev.amount = argsSmall.amount ∧
        (argsSmall.choice < 2 ^ 53 → ev.choice = argsSmall.choice) ∧
        (argsSmall.outcome < 2 ^ 53 → ev.outcome = argsSmall.outcome))) :=
  ⟨rfl, c8_decode_faithful parseLogSmall getBlockA "" GameType.dice true logA
    argsSmall rfl⟩

/-- C5 (confirmed): if a participant-address filter `P` is supplied (a
non-empty string in the combined view; the player view always filters),
every event in the returned list has its `player` field equal to the
lowercased `P`; no event of a different player is returned. -/
theorem c5_player_filter (parseLog : Log → Option RollArgs)
    (getBlock : ℤ → Option EthBlock) (P : String) (gameType : GameType)
    (mounted : Bool) (allLogs : List Log) (hP : P ≠ "") :
    (∀ e ∈ combinedParsedEvents parseLog getBlock P gameType allLogs,
        e.player = P.toLower) ∧
    (∀ e ∈ playerParsedEvents parseLog getBlock mounted P allLogs,
        e.player = P.toLower) := by
  constructor
  · intro e he
    obtain ⟨lg, _hlg, hproc⟩ := List.mem_filterMap.mp he
    cases hpl : parseLog lg with
    | none => simp [combinedProcessLog, hpl] at hproc
    | some args =>
      simp only [combinedProcessLog, hpl] at hproc
      split at hproc
      · exact absurd hproc (by simp)
      · rename_i hcond
        push_neg at hcond
        have hpeq : args.player.toLower = P.toLower := hcond hP
        split at hproc
        · exact absurd hproc (by simp)
        · obtain rfl := Option.some.inj hproc
          exact hpeq
  · intro e he
    obtain ⟨lg, _hlg, hproc⟩ := List.mem_filterMap.mp he
    cases hpl : parseLog lg with
    | none => simp [playerProcessLog, hpl] at hproc
    | some args =>
      simp only [playerProcessLog, hpl] at hproc
      split at hproc
      · exact absurd hproc (by simp)
      · rename_i hcond
        push_neg at hcond
        split at hproc
        · exact absurd hproc (by simp)
        · split at hproc
          · exact absurd hproc (by simp)
          · obtain rfl := Option.some.inj hproc
            exact hcond

/-- Witness for `c5_player_filter` on concrete fixtures. -/
theorem c5_player_filter_witness :
    "0xAB" ≠ "" ∧
    ((∀ e ∈ combinedParsedEvents parseLogSmall getBlockA "0xAB" GameType.dice [logA],
        e.player = String.toLower "0xAB") ∧
     (∀ e ∈ playerParsedEvents parseLogSmall getBlockA true "0xAB" [logA],
        e.player = String.toLower "0xAB")) :=
  ⟨by decide,
    c5_player_filter parseLogSmall getBlockA "0xAB" GameType.dice true [logA]
      (by decide)⟩

/-- A skipped log contributes nothing to `filterMap` and leaves the rest
of the loop unchanged. -/
lemma filterMap_skip {α β : Type} (f : α → Option β) (xs ys : List α)
    {bad : α} (hbad : f bad = none) :
    (xs ++ bad :: ys).filterMap f = (xs ++ ys).filterMap f := by
  rw [List.filterMap_append, List.filterMap_append, List.filterMap_cons, hbad]

/-- C6 (confirmed): during event construction a per-log decode failure
skips only that log, and a per-event block-lookup failure (block resolves
to `null`) skips only that event; in both components the remaining logs
are processed exactly as if the failing one were absent, and the cycle is
not aborted. -/
theorem c6_per_log_failure_isolated (parseLog : Log → Option RollArgs)
    (getBlock : ℤ → Option EthBlock) (P : String) (gameType : GameType)
    (mounted : Bool) (xs ys : List Log) (bad : Log) :
    (parseLog bad = none →
      combinedParsedEvents parseLog getBlock P gameType (xs ++ bad :: ys) =
          combinedParsedEvents parseLog getBlock P gameType (xs ++ ys) ∧
      playerParsedEvents parseLog getBlock mounted P (xs ++ bad :: ys) =
          playerParsedEvents parseLog getBlock mounted P (xs ++ ys)) ∧
    (∀ args, parseLog bad = some args → getBlock bad.blockNumber = none →
      combinedParsedEvents parseLog getBlock P gameType (xs ++ bad :: ys) =
          combinedParsedEvents parseLog getBlock P gameType (xs ++ ys) ∧
      playerParsedEvents parseLog getBlock mounted P (xs ++ bad :: ys) =
          playerParsedEvents parseLog getBlock mounted P (xs ++ ys)) := by
  constructor
  · intro hnone
    constructor
    · exact filterMap_skip _ xs ys (by simp [combinedProcessLog, hnone])
    · exact filterMap_skip _ xs ys (by simp [playerProcessLog, hnone])
  · intro args hargs hblock
    constructor
    · refine filterMap_skip _ xs ys ?_
      simp only [combinedProcessLog, hargs, hblock]
      split
      · rfl
      · rfl
    · refine filterMap_skip _ xs ys ?_
      simp only [playerProcessLog, hargs, hblock]
      split
      · rfl
      · rfl

/-- Witness for `c6_per_log_failure_isolated` on concrete fixtures. -/
theorem c6_per_log_failure_isolated_witness :
    parseLogNone logA = none ∧
    combinedParsedEvents parseLogNone getBlockA "" GameType.dice ([logB] ++ logA :: []) =
        combinedParsedEvents parseLogNone getBlockA "" GameType.dice ([logB] ++ []) :=
  ⟨rfl,
    ((c6_per_log_failure_isolated parseLogNone getBlockA "" GameType.dice true
        [logB] [] logA).1 rfl).1⟩

/-- Processing of one raw log of the combined view with the player-filter
branch removed (the spec's unfiltered pipeline). -/
def combinedProcessLogNoFilter (parseLog : Log → Option RollArgs)
    (getBlock : ℤ → Option EthBlock) (gameType : GameType) (log : Log) :
    Option GameEvent :=
  match parseLog log with
  | none => none
  | some args =>
    match getBlock log.blockNumber with
    | none => none
    | some block =>
      some { blockNumber := log.blockNumber,
             transactionHash := jsStringOr log.transactionHash ("unknown"),
             player := args.player.toLower,
             amount := args.amount,
             choice := jsNumberOfNat args.choice,
             outcome := jsNumberOfNat args.outcome,
             won := args.won,
             gameType := gameType,
             timestamp := block.timestamp }

/-- JavaScript `currentAccount || ''` at the combined view's call sites
(`part_000` lines 165 and 174): the empty string when no wallet is
connected (`currentAccount` undefined) or the account is otherwise falsy. -/
def accountOrEmpty (currentAccount : Option String) : String :=
  match currentAccount with
  | none => ""
  | some a => if a = "" then "" else a

/-- C10 (confirmed): with no wallet connected the combined view passes the
empty string as the participant filter, and the empty string acts as the
no-filter sentinel: the pipeline then equals the unfiltered pipeline, so
events of every player are returned. -/
theorem c10_empty_account_no_filter (parseLog : Log → Option RollArgs)
    (getBlock : ℤ → Option EthBlock) (gameType : GameType) (allLogs : List Log) :
    accountOrEmpty none = "" ∧
    combinedParsedEvents parseLog getBlock (accountOrEmpty none) gameType allLogs =
        allLogs.filterMap (combinedProcessLogNoFilter parseLog getBlock gameType) := by
  refine ⟨rfl, ?_⟩
  unfold combinedParsedEvents
  have hfun : combinedProcessLog parseLog getBlock (accountOrEmpty none) gameType =
      combinedProcessLogNoFilter parseLog getBlock gameType := by
    funext lg
    simp only [combinedProcessLog, combinedProcessLogNoFilter, accountOrEmpty]
    cases parseLog lg with
    | none => rfl
    | some args => simp
  rw [hfun]

/-- Contract address queried by the player view (`part_001` line 34). -/
def CONTRACT_ADDRESS : String := "0xd60aF0bbE2C6EFeD5651Ef48feb0BF0d77323D9e"

/-- An `Except` computation that failed (a rejected/throwing `await`). -/
def IsErr {α : Type} (x : Except String α) : Prop :=
  ∃ e, x = Except.error e

/-- One iteration of the chunk loop's log accumulation
(`allLogs.push(...logs)` after `await provider.getLogs({...})`): a
throwing query aborts the whole loop, since the surrounding `try` has no
per-chunk handler. -/
def accumLogs (getLogs : ℤ → ℤ → Except String (List Log))
    (acc : Except String (List Log)) (w : ℤ × ℤ) : Except String (List Log) :=
  match acc with
  | Except.error e => Except.error e
  | Except.ok logsSoFar =>
    match getLogs w.1 w.2 with
    | Except.error e => Except.error e
    | Except.ok logs => Except.ok (logsSoFar ++ logs)

/-- The chunk loop of `fetchEventsForContract` (`part_000` lines 69-92):
one `getLogs` query per window, results concatenated in order; the first
failing query aborts the loop. -/
def fetchContractLogs (getLogs : ℤ → ℤ → Except String (List Log))
    (S L C : ℕ) : Except String (List Log) :=
  (chunkWindows S L C).foldl (accumLogs getLogs) (Except.ok [])

/-- The chunk loop of `fetchRollEvents` (`part_001` lines 80-103).  Its
condition `i < chunksNeeded && isMounted` also stops once the liveness
flag is cleared; with a constant flag this means no query is issued when
unmounted. -/
def fetchRollLogs (mounted : Bool) (getLogs : ℤ → ℤ → Except String (List Log))
    (S L C : ℕ) : Except String (List Log) :=
  (if mounted then chunkWindows S L C else []).foldl (accumLogs getLogs) (Except.ok [])

/-- `fetchEventsForContract` (`part_000` lines 52-135): chunked log fetch
followed by the per-log decode loop; a failing query propagates, decode
failures are per-log (handled inside `combinedProcessLog`). -/
def fetchEventsForContract (getLogs : ℤ → ℤ → Except String (List Log))
    (parseLog : Log → Option RollArgs) (getBlock : ℤ → Option EthBlock)
    (currentAccount : String) (gameType : GameType) (S L : ℕ) :
    Except String (List GameEvent) :=
  match fetchContractLogs getLogs S L MAX_CHUNK_SIZE with
  | Except.error e => Except.error e
  | Except.ok allLogs =>
    Except.ok (combinedParsedEvents parseLog getBlock currentAccount gameType allLogs)

/-- One cycle of `fetchAllEvents` (`part_000` lines 144-196) up to the
value passed to `setEvents`: block height, range computation
(`startBlock = Math.max(latestBlock - TOTAL_BLOCKS_TO_CHECK, 0)`, which is
truncated natural subtraction), both contract fetches, merge/sort/cap.
The provider's `getLogs` oracle takes the contract address first. -/
def fetchAllEventsResult (getBlockNumber : Except String ℕ)
    (getLogs : String → ℤ → ℤ → Except String (List Log))
    (parseLog : Log → Option RollArgs) (getBlock : ℤ → Option EthBlock)
    (currentAccount : String) : Except String (List GameEvent) :=
  match getBlockNumber with
  | Except.error e => Except.error e
  | Except.ok latestBlock =>
    match fetchEventsForContract (getLogs DICE_CONTRACT_ADDRESS) parseLog getBlock
        currentAccount GameType.dice (latestBlock - TOTAL_BLOCKS_TO_CHECK) latestBlock with
    | Except.error e => Except.error e
    | Except.ok diceEvents =>
      match fetchEventsForContract (getLogs COINFLIP_CONTRACT_ADDRESS) parseLog getBlock
          currentAccount GameType.coinflip (latestBlock - TOTAL_BLOCKS_TO_CHECK) latestBlock with
      | Except.error e => Except.error e
      | Except.ok coinflipEvents => Except.ok (combinedDisplay diceEvents coinflipEvents)

/-- UI state of the combined component: its display buffer plus the error
and loading flags (the `useState` hooks). -/
structure UIState where
  events : List GameEvent
  error : Option String
  loading : Bool
deriving DecidableEq

/-- UI state of the player component. -/
structure PlayerUIState where
  events : List RollEvent
  error : Option String
  loading : Bool
deriving DecidableEq

/-- Effect of one completed `fetchAllEvents` cycle on a still-mounted
component's state (`part_000` lines 186-195): on success the new list is
stored and the error stays cleared; on any failure the `catch` block
stores the single generic message and the display buffer keeps its
previous contents; `finally` clears the loading flag. -/
def fetchAllEventsStep (getBlockNumber : Except String ℕ)
    (getLogs : String → ℤ → ℤ → Except String (List Log))
    (parseLog : Log → Option RollArgs) (getBlock : ℤ → Option EthBlock)
    (currentAccount : String) (prev : UIState) : UIState :=
  match fetchAllEventsResult getBlockNumber getLogs parseLog getBlock currentAccount with
  | Except.ok evs => { events := evs, error := none, loading := false }
  | Except.error _ =>
    { events := prev.events, error := some ("Failed to fetch Sei EVM events"),
      loading := false }

/-- One cycle of `fetchRollEvents` (`part_001` lines 60-162) up to the
value passed to `setEvents`, for a constant liveness flag. -/
def fetchRollEventsResult (mounted : Bool) (getBlockNumber : Except String ℕ)
    (getLogs : String → ℤ → ℤ → Except String (List Log))
    (parseLog : Log → Option RollArgs) (getBlock : ℤ → Option EthBlock)
    (currentAccount : String) : Except String (List RollEvent) :=
  match getBlockNumber with
  | Except.error e => Except.error e
  | Except.ok latestBlock =>
    match fetchRollLogs mounted (getLogs CONTRACT_ADDRESS)
        (latestBlock - TOTAL_BLOCKS_TO_CHECK) latestBlock MAX_CHUNK_SIZE with
    | Except.error e => Except.error e
    | Except.ok allLogs =>
      Except.ok (playerDisplay
        (playerParsedEvents parseLog getBlock mounted currentAccount allLogs))

/-- Effect of one completed `fetchRollEvents` cycle on a still-mounted
player component's state (`part_001` lines 145-161). -/
def fetchRollEventsStep (getBlockNumber : Except String ℕ)
    (getLogs : String → ℤ → ℤ → Except String (List Log))
    (parseLog : Log → Option RollArgs) (getBlock : ℤ → Option EthBlock)
    (currentAccount : String) (prev : PlayerUIState) : PlayerUIState :=
  match fetchRollEventsResult true getBlockNumber getLogs parseLog getBlock currentAccount with
  | Except.ok evs => { events := evs, error := none, loading := false }
  | Except.error _ =>
    { events := prev.events, error := some ("Failed to fetch Sei EVM events"),
      loading := false }

/-- A failed accumulator stays failed. -/
lemma accumLogs_error (getLogs : ℤ → ℤ → Except String (List Log))
    {acc : Except String (List Log)} (w : ℤ × ℤ) (h : IsErr acc) :
    IsErr (accumLogs getLogs acc w) := by
  obtain ⟨e, rfl⟩ := h
  exact ⟨e, rfl⟩

/-- A failing query fails the accumulator. -/
lemma accumLogs_error_of_getLogs (getLogs : ℤ → ℤ → Except String (List Log))
    (acc : Except String (List Log)) (w : ℤ × ℤ)
    (h : IsErr (getLogs w.1 w.2)) : IsErr (accumLogs getLogs acc w) := by
  obtain ⟨e, he⟩ := h
  cases acc with
  | error e2 => exact ⟨e2, rfl⟩
  | ok logs =>
    refine ⟨e, ?_⟩
    unfold accumLogs
    rw [he]

/-- The chunk loop never recovers from a failure. -/
lemma foldl_accumLogs_error (getLogs : ℤ → ℤ → Except String (List Log))
    (l : List (ℤ × ℤ)) {acc : Except String (List Log)} (h : IsErr acc) :
    IsErr (l.foldl (accumLogs getLogs) acc) := by
  induction l generalizing acc with
  | nil => exact h
  | cons w ws ih => exact ih (accumLogs_error getLogs w h)

/-- If any window's query fails, the whole chunk loop fails. -/
lemma foldl_accumLogs_error_of_mem (getLogs : ℤ → ℤ → Except String (List Log))
    {l : List (ℤ × ℤ)} {w : ℤ × ℤ} (hw : w ∈ l)
    (hfail : IsErr (getLogs w.1 w.2)) (acc : Except String (List Log)) :
    IsErr (l.foldl (accumLogs getLogs) acc) := by
  induction l generalizing acc with
  | nil => cases hw
  | cons x xs ih =>
    rcases List.mem_cons.mp hw with rfl | hmem
    · exact foldl_accumLogs_error getLogs xs
        (accumLogs_error_of_getLogs getLogs acc w hfail)
    · exact ih hmem _

/-- Every log delivered by a successful chunk loop came from the query of
one of the windows. -/
lemma foldl_accumLogs_ok_mem (getLogs : ℤ → ℤ → Except String (List Log)) :
    ∀ (l : List (ℤ × ℤ)) (acc0 logs : List Log),
      l.foldl (accumLogs getLogs) (Except.ok acc0) = Except.ok logs →
      ∀ lg ∈ logs, lg ∈ acc0 ∨
        ∃ w ∈ l, ∃ ls, getLogs w.1 w.2 = Except.ok ls ∧ lg ∈ ls := by
  intro l
  induction l with
  | nil =>
    intro acc0 logs h lg hlg
    rw [List.foldl_nil] at h
    cases h
    exact Or.inl hlg
  | cons x xs ih =>
    intro acc0 logs h lg hlg
    rw [List.foldl_cons] at h
    cases hx : getLogs x.1 x.2 with
    | error e =>
      exfalso
      obtain ⟨e2, he2⟩ := foldl_accumLogs_error getLogs xs
        (accumLogs_error_of_getLogs getLogs (Except.ok acc0) x ⟨e, hx⟩)
      rw [h] at he2
      cases he2
    | ok ls =>
      have hstep : accumLogs getLogs (Except.ok acc0) x = Except.ok (acc0 ++ ls) := by
        unfold accumLogs
        rw [hx]
      rw [hstep] at h
      rcases ih (acc0 ++ ls) logs h lg hlg with hin | ⟨w, hwmem, ls2, hls2, hlg2⟩
      · rcases List.mem_append.mp hin with h1 | h2
        · exact Or.inl h1
        · exact Or.inr ⟨x, List.mem_cons_self _ _, ls, hx, h2⟩
      · exact Or.inr ⟨w, List.mem_cons_of_mem _ hwmem, ls2, hls2, hlg2⟩

/-- The constructed event keeps the log's block number (combined view). -/
lemma combinedProcessLog_blockNumber {parseLog : Log → Option RollArgs}
    {getBlock : ℤ → Option EthBlock} {currentAccount : String}
    {gameType : GameType} {log : Log} {ev : GameEvent}
    (h : combinedProcessLog parseLog getBlock currentAccount gameType log = some ev) :
    ev.blockNumber = log.blockNumber := by
  cases hpl : parseLog log with
  | none => simp [combinedProcessLog, hpl] at h
  | some args =>
    simp only [combinedProcessLog, hpl] at h
    split at h
    · exact absurd h (by simp)
    · split at h
      · exact absurd h (by simp)
      · obtain rfl := Option.some.inj h
        rfl

/-- The constructed event keeps the log's block number (player view). -/
lemma playerProcessLog_blockNumber {parseLog : Log → Option RollArgs}
    {getBlock : ℤ → Option EthBlock} {mounted : Bool} {currentAccount : String}
    {log : Log} {ev : RollEvent}
    (h : playerProcessLog parseLog getBlock mounted currentAccount log = some ev) :
    ev.blockNumber = log.blockNumber := by
  cases hpl : parseLog log with
  | none => simp [playerProcessLog, hpl] at h
  | some args =>
    simp only [playerProcessLog, hpl] at h
    split at h
    · exact absurd h (by simp)
    · split at h
      · exact absurd h (by simp)
      · split at h
        · exact absurd h (by simp)
        · obtain rfl := Option.some.inj h
          rfl

/-- Whatever the display list of the combined view holds came from one of
the two decoded lists. -/
lemma mem_combinedDisplay {d c : List GameEvent} {e : GameEvent}
    (h : e ∈ combinedDisplay d c) : e ∈ d ∨ e ∈ c := by
  have h2 : e ∈ (d ++ c).mergeSort byBlockDesc :=
    (List.take_sublist _ _).subset h
  rw [List.mem_mergeSort] at h2
  exact List.mem_append.mp h2

/-- Whatever the display list of the player view holds came from the
decoded list. -/
lemma mem_playerDisplay {l : List RollEvent} {e : RollEvent}
    (h : e ∈ playerDisplay l) : e ∈ l := by
  have h2 := (List.take_sublist _ _).subset h
  rwa [List.mem_mergeSort] at h2

/-- Block-number bounds for one contract fetch of the combined view. -/
lemma fetchEventsForContract_bounds
    (getLogs : ℤ → ℤ → Except String (List Log)) (parseLog : Log → Option RollArgs)
    (getBlock : ℤ → Option EthBlock) (currentAccount : String)
    (gameType : GameType) (S L : ℕ)
    (hprov : ∀ f t ls, getLogs f t = Except.ok ls →
        ∀ lg ∈ ls, f ≤ lg.blockNumber ∧ lg.blockNumber ≤ t)
    {evs : List GameEvent}
    (h : fetchEventsForContract getLogs parseLog getBlock currentAccount gameType S L =
        Except.ok evs) :
    ∀ e ∈ evs, (S : ℤ) ≤ e.blockNumber ∧ e.blockNumber ≤ (L : ℤ) := by
  intro e he
  unfold fetchEventsForContract at h
  split at h
  · exact absurd h (by simp)
  · rename_i allLogs hl
    obtain rfl := Except.ok.inj h
    obtain ⟨lg, hlgmem, hproc⟩ :=
      List.mem_filterMap.mp (by simpa [combinedParsedEvents] using he)
    have hbn := combinedProcessLog_blockNumber hproc
    rcases foldl_accumLogs_ok_mem getLogs (chunkWindows S L MAX_CHUNK_SIZE) [] allLogs hl
        lg hlgmem with hin | ⟨w, hw, ls, hls, hlgls⟩
    · cases hin
    · obtain ⟨hf, ht⟩ := hprov w.1 w.2 ls hls lg hlgls
      obtain ⟨i, hi, rfl⟩ := (mem_chunkWindows S L MAX_CHUNK_SIZE).mp hw
      obtain ⟨hw1, _, hw3, _, _⟩ := chunkWindow_facts S L MAX_CHUNK_SIZE (by decide) hi
      rw [hbn]
      exact ⟨le_trans hw1 hf, le_trans ht hw3⟩

/-- Unfolding of a combined cycle whose block-height query succeeded. -/
lemma fetchAllEventsResult_ok_eq (getLogs : String → ℤ → ℤ → Except String (List Log))
    (parseLog : Log → Option RollArgs) (getBlock : ℤ → Option EthBlock)
    (currentAccount : String) (lb : ℕ) :
    fetchAllEventsResult (Except.ok lb) getLogs parseLog getBlock currentAccount =
      match fetchEventsForContract (getLogs DICE_CONTRACT_ADDRESS) parseLog getBlock
          currentAccount GameType.dice (lb - TOTAL_BLOCKS_TO_CHECK) lb with
      | Except.error e => Except.error e
      | Except.ok diceEvents =>
        match fetchEventsForContract (getLogs COINFLIP_CONTRACT_ADDRESS) parseLog getBlock
            currentAccount GameType.coinflip (lb - TOTAL_BLOCKS_TO_CHECK) lb with
        | Except.error e => Except.error e
        | Except.ok coinflipEvents => Except.ok (combinedDisplay diceEvents coinflipEvents) :=
  rfl

/-- Unfolding of a player cycle whose block-height query succeeded. -/
lemma fetchRollEventsResult_ok_eq (mounted : Bool)
    (getLogs : String → ℤ → ℤ → Except String (List Log))
    (parseLog : Log → Option RollArgs) (getBlock : ℤ → Option EthBlock)
    (currentAccount : String) (lb : ℕ) :
    fetchRollEventsResult mounted (Except.ok lb) getLogs parseLog getBlock currentAccount =
      match fetchRollLogs mounted (getLogs CONTRACT_ADDRESS)
          (lb - TOTAL_BLOCKS_TO_CHECK) lb MAX_CHUNK_SIZE with
      | Except.error e => Except.error e
      | Except.ok allLogs =>
        Except.ok (playerDisplay
          (playerParsedEvents parseLog getBlock mounted currentAccount allLogs)) :=
  rfl

/-- C4 (confirmed): every event returned by a fetch cycle has its block
number inside `[startBlock, latestBlock]` as computed at the start of that
cycle (`startBlock = latestBlock - TOTAL_BLOCKS_TO_CHECK`, clamped at 0),
because every issued log query window has `fromBlock ≥ startBlock` and
`toBlock ≤ latestBlock`; this holds in both components, assuming the
provider returns only logs inside the queried window. -/
theorem c4_events_within_range
    (getBlockNumber : Except String ℕ)
    (getLogs : String → ℤ → ℤ → Except String (List Log))
    (parseLog : Log → Option RollArgs) (getBlock : ℤ → Option EthBlock)
    (currentAccount : String) (mounted : Bool) (latestBlock : ℕ)
    (hprov : ∀ a f t ls, getLogs a f t = Except.ok ls →
        ∀ lg ∈ ls, f ≤ lg.blockNumber ∧ lg.blockNumber ≤ t)
    (hlatest : getBlockNumber = Except.ok latestBlock) :
    (∀ w ∈ chunkWindows (latestBlock - TOTAL_BLOCKS_TO_CHECK) latestBlock MAX_CHUNK_SIZE,
        ((latestBlock - TOTAL_BLOCKS_TO_CHECK : ℕ) : ℤ) ≤ w.1 ∧
        w.2 ≤ (latestBlock : ℤ)) ∧
    (∀ evs, fetchAllEventsResult getBlockNumber getLogs parseLog getBlock currentAccount =
          Except.ok evs →
        ∀ e ∈ evs,
          ((latestBlock - TOTAL_BLOCKS_TO_CHECK : ℕ) : ℤ) ≤ e.blockNumber ∧
          e.blockNumber ≤ (latestBlock : ℤ)) ∧
    (∀ evs, fetchRollEventsResult mounted getBlockNumber getLogs parseLog getBlock
          currentAccount = Except.ok evs →
        ∀ e ∈ evs,
          ((latestBlock - TOTAL_BLOCKS_TO_CHECK : ℕ) : ℤ) ≤ e.blockNumber ∧
          e.blockNumber ≤ (latestBlock : ℤ)) := by
  refine ⟨?_, ?_, ?_⟩
  · intro w hw
    obtain ⟨i, hi, rfl⟩ :=
      (mem_chunkWindows (latestBlock - TOTAL_BLOCKS_TO_CHECK) latestBlock MAX_CHUNK_SIZE).mp hw
    obtain ⟨hw1, _, hw3, _, _⟩ :=
      chunkWindow_facts (latestBlock - TOTAL_BLOCKS_TO_CHECK) latestBlock MAX_CHUNK_SIZE
        (by decide) hi
    exact ⟨hw1, hw3⟩
  · intro evs h e he
    rw [hlatest, fetchAllEventsResult_ok_eq] at h
    split at h
    · exact absurd h (by simp)
    · rename_i diceEvents hdice
      split at h
      · exact absurd h (by simp)
      · rename_i coinflipEvents hcoin
        obtain rfl := Except.ok.inj h
        rcases mem_combinedDisplay he with hd | hc
        · exact fetchEventsForContract_bounds _ parseLog getBlock currentAccount
            GameType.dice _ _ (hprov DICE_CONTRACT_ADDRESS) hdice e hd
        · exact fetchEventsForContract_bounds _ parseLog getBlock currentAccount
            GameType.coinflip _ _ (hprov COINFLIP_CONTRACT_ADDRESS) hcoin e hc
  · intro evs h e he
    rw [hlatest, fetchRollEventsResult_ok_eq] at h
    split at h
    · exact absurd h (by simp)
    · rename_i allLogs hl
      obtain rfl := Except.ok.inj h
      have he2 := mem_playerDisplay he
      obtain ⟨lg, hlgmem, hproc⟩ :=
        List.mem_filterMap.mp (by simpa [playerParsedEvents] using he2)
      have hbn := playerProcessLog_blockNumber hproc
      unfold fetchRollLogs at hl
      rcases foldl_accumLogs_ok_mem (getLogs CONTRACT_ADDRESS) _ [] allLogs hl
          lg hlgmem with hin | ⟨w, hw, ls, hls, hlgls⟩
      · cases hin
      · cases mounted with
        | false => simp at hw
        | true =>
          rw [if_pos rfl] at hw
          obtain ⟨hf, ht⟩ := hprov CONTRACT_ADDRESS w.1 w.2 ls hls lg hlgls
          obtain ⟨i, hi, rfl⟩ := (mem_chunkWindows _ _ _).mp hw
          obtain ⟨hw1, _, hw3, _, _⟩ :=
            chunkWindow_facts (latestBlock - TOTAL_BLOCKS_TO_CHECK) latestBlock
              MAX_CHUNK_SIZE (by decide) hi
          rw [hbn]
          exact ⟨le_trans hw1 hf, le_trans ht hw3⟩

/-- Log oracle fixture returning no logs for any query. -/
def getLogsEmpty (_a : String) (_f _t : ℤ) : Except String (List Log) :=
  Except.ok []

/-- Witness for `c4_events_within_range` on concrete fixtures. -/
theorem c4_events_within_range_witness :
    (∀ w ∈ chunkWindows (3000 - TOTAL_BLOCKS_TO_CHECK) 3000 MAX_CHUNK_SIZE,
        ((3000 - TOTAL_BLOCKS_TO_CHECK : ℕ) : ℤ) ≤ w.1 ∧ w.2 ≤ (3000 : ℤ)) ∧
    (∀ evs, fetchAllEventsResult (Except.ok 3000) getLogsEmpty parseLogSmall getBlockA "" =
          Except.ok evs →
        ∀ e ∈ evs,
          ((3000 - TOTAL_BLOCKS_TO_CHECK : ℕ) : ℤ) ≤ e.blockNumber ∧
          e.blockNumber ≤ (3000 : ℤ)) ∧
    (∀ evs, fetchRollEventsResult true (Except.ok 3000) getLogsEmpty parseLogSmall
          getBlockA "" = Except.ok evs →
        ∀ e ∈ evs,
          ((3000 - TOTAL_BLOCKS_TO_CHECK : ℕ) : ℤ) ≤ e.blockNumber ∧
          e.blockNumber ≤ (3000 : ℤ)) :=
  c4_events_within_range (Except.ok 3000) getLogsEmpty parseLogSmall getBlockA "" true 3000
    (by
      intro a f t ls h lg hlg
      cases h
      cases hlg)
    rfl

/-- A failing chunk loop fails the per-contract fetch. -/
lemma fetchEventsForContract_error {getLogs : ℤ → ℤ → Except String (List Log)}
    {parseLog : Log → Option RollArgs} {getBlock : ℤ → Option EthBlock}
    {currentAccount : String} {gameType : GameType} {S L : ℕ}
    (h : IsErr (fetchContractLogs getLogs S L MAX_CHUNK_SIZE)) :
    IsErr (fetchEventsForContract getLogs parseLog getBlock currentAccount gameType S L) := by
  obtain ⟨e, he⟩ := h
  refine ⟨e, ?_⟩
  unfold fetchEventsForContract
  rw [he]

/-- C7 (confirmed): if the block-height query or any single chunked log
query of a fetch cycle fails, the whole cycle fails, and a failed cycle
leaves the previously displayed event list unchanged while surfacing only
the single generic message `Failed to fetch Sei EVM events`; no partial
result is published.  Stated for both components (the player view with the
liveness flag still set). -/
theorem c7_error_atomicity
    (getBlockNumber : Except String ℕ)
    (getLogs : String → ℤ → ℤ → Except String (List Log))
    (parseLog : Log → Option RollArgs) (getBlock : ℤ → Option EthBlock)
    (currentAccount : String) (latestBlock : ℕ) (w : ℤ × ℤ) :
    (∀ prev : UIState,
        IsErr (fetchAllEventsResult getBlockNumber getLogs parseLog getBlock currentAccount) →
        fetchAllEventsStep getBlockNumber getLogs parseLog getBlock currentAccount prev =
          { events := prev.events, error := some ("Failed to fetch Sei EVM events"),
            loading := false }) ∧
    (IsErr getBlockNumber →
        IsErr (fetchAllEventsResult getBlockNumber getLogs parseLog getBlock currentAccount)) ∧
    (getBlockNumber = Except.ok latestBlock →
        w ∈ chunkWindows (latestBlock - TOTAL_BLOCKS_TO_CHECK) latestBlock MAX_CHUNK_SIZE →
        IsErr (getLogs DICE_CONTRACT_ADDRESS w.1 w.2) →
        IsErr (fetchAllEventsResult getBlockNumber getLogs parseLog getBlock currentAccount)) ∧
    (getBlockNumber = Except.ok latestBlock →
        w ∈ chunkWindows (latestBlock - TOTAL_BLOCKS_TO_CHECK) latestBlock MAX_CHUNK_SIZE →
        IsErr (getLogs COINFLIP_CONTRACT_ADDRESS w.1 w.2) →
        IsErr (fetchAllEventsResult getBlockNumber getLogs parseLog getBlock currentAccount)) ∧
    (∀ prev : PlayerUIState,
        IsErr (fetchRollEventsResult true getBlockNumber getLogs parseLog getBlock
          currentAccount) →
        fetchRollEventsStep getBlockNumber getLogs parseLog getBlock currentAccount prev =
          { events := prev.events, error := some ("Failed to fetch Sei EVM events"),
            loading := false }) ∧
    (IsErr getBlockNumber →
        IsErr (fetchRollEventsResult true getBlockNumber getLogs parseLog getBlock
          currentAccount)) ∧
    (getBlockNumber = Except.ok latestBlock →
        w ∈ chunkWindows (latestBlock - TOTAL_BLOCKS_TO_CHECK) latestBlock MAX_CHUNK_SIZE →
        IsErr (getLogs CONTRACT_ADDRESS w.1 w.2) →
        IsErr (fetchRollEventsResult true getBlockNumber getLogs parseLog getBlock
          currentAccount)) := by
  refine ⟨?_, ?_, ?_, ?_, ?_, ?_, ?_⟩
  · intro prev herr
    obtain ⟨e, he⟩ := herr
    unfold fetchAllEventsStep
    rw [he]
  · intro herr
    obtain ⟨e, he⟩ := herr
    refine ⟨e, ?_⟩
    unfold fetchAllEventsResult
    rw [he]
  · intro hbn hw hfail
    obtain ⟨e, he⟩ := @fetchEventsForContract_error (getLogs DICE_CONTRACT_ADDRESS)
      parseLog getBlock currentAccount GameType.dice
      (latestBlock - TOTAL_BLOCKS_TO_CHECK) latestBlock
      (foldl_accumLogs_error_of_mem (getLogs DICE_CONTRACT_ADDRESS) hw hfail _)
    refine ⟨e, ?_⟩
    rw [hbn, fetchAllEventsResult_ok_eq, he]
  · intro hbn hw hfail
    cases hdice : fetchEventsForContract (getLogs DICE_CONTRACT_ADDRESS) parseLog getBlock
        currentAccount GameType.dice (latestBlock - TOTAL_BLOCKS_TO_CHECK) latestBlock with
    | error e =>
      refine ⟨e, ?_⟩
      rw [hbn, fetchAllEventsResult_ok_eq, hdice]
    | ok diceEvents =>
      obtain ⟨e, he⟩ := @fetchEventsForContract_error (getLogs COINFLIP_CONTRACT_ADDRESS)
        parseLog getBlock currentAccount GameType.coinflip
        (latestBlock - TOTAL_BLOCKS_TO_CHECK) latestBlock
        (foldl_accumLogs_error_of_mem (getLogs COINFLIP_CONTRACT_ADDRESS) hw hfail _)
      refine ⟨e, ?_⟩
      rw [hbn, fetchAllEventsResult_ok_eq, hdice]
      simp only [he]
  · intro prev herr
    obtain ⟨e, he⟩ := herr
    unfold fetchRollEventsStep
    rw [he]
  · intro herr
    obtain ⟨e, he⟩ := herr
    refine ⟨e, ?_⟩
    unfold fetchRollEventsResult
    rw [he]
  · intro hbn hw hfail
    have hlogs : IsErr (fetchRollLogs true (getLogs CONTRACT_ADDRESS)
        (latestBlock - TOTAL_BLOCKS_TO_CHECK) latestBlock MAX_CHUNK_SIZE) := by
      unfold fetchRollLogs
      rw [if_pos rfl]
      exact foldl_accumLogs_error_of_mem (getLogs CONTRACT_ADDRESS) hw hfail _
    obtain ⟨e, he⟩ := hlogs
    refine ⟨e, ?_⟩
    rw [hbn, fetchRollEventsResult_ok_eq, he]

/-- Failing block-height oracle fixture. -/
def getBlockNumberFail : Except String ℕ := Except.error ("boom")

/-- Witness for `c7_error_atomicity` on concrete fixtures: a failed cycle
keeps the previous three events while storing the generic error. -/
theorem c7_error_atomicity_witness :
    IsErr getBlockNumberFail ∧
    fetchAllEventsStep getBlockNumberFail getLogsEmpty parseLogSmall getBlockA ""
        { events := [], error := none, loading := true } =
      { events := [], error := some ("Failed to fetch Sei EVM events"),
        loading := false } :=
  ⟨⟨"boom", rfl⟩,
    (c7_error_atomicity getBlockNumberFail getLogsEmpty parseLogSmall getBlockA "" 0
        (0, 0)).1 { events := [], error := none, loading := true }
      ((c7_error_atomicity getBlockNumberFail getLogsEmpty parseLogSmall getBlockA "" 0
        (0, 0)).2.1 ⟨"boom", rfl⟩)⟩

/-- A state mutation of a component: one of the `useState` setters. -/
inductive Mutation
  | setEventsList (evs : List GameEvent)
  | setRollEventsList (evs : List RollEvent)
  | setErrorMsg (e : Option String)
  | setLoadingFlag (b : Bool)
deriving DecidableEq

/-- A mutation guarded by its own liveness check (`if (isMounted) ...` in
the source) at suspension count `t`: executed only when the flag still
holds. -/
def guarded (mounted : ℕ → Bool) (t : ℕ) (m : Mutation) : List (ℕ × Mutation) :=
  if mounted t then [(t, m)] else []

/-- The mutations executed by one `fetchAllEvents` cycle (`part_000` lines
144-196), each tagged with the number of completed suspension points when
it runs.  `mounted t` is the liveness flag as read after `t` suspensions;
`blockNumOk`/`fetchOk` tell whether `getBlockNumber` and the
`Promise.all` of the two contract fetches resolve or reject; `inner` is
the number of suspension points consumed inside the two contract fetches
(their chunk queries, throttle delays and block lookups), so the code
after `await Promise.all` runs at suspension count `2 + inner`.
Transcription: the initial `setError(null)`/`setLoading(true)` pair is
guarded (line 146); after `await getBlockNumber` an unmounted cycle
returns (line 152); after `await Promise.all` an unmounted cycle returns
(line 178), otherwise `setEvents` runs unguarded (line 186, dominated by
the line-178 check with no suspension in between); the `catch` setter and
the `finally` setter carry their own guards (lines 189, 194). -/
def combinedCycleTrace (mounted : ℕ → Bool) (blockNumOk fetchOk : Bool)
    (inner : ℕ) (d c : List GameEvent) : List (ℕ × Mutation) :=
  if blockNumOk = false then
    (guarded mounted 0 (Mutation.setErrorMsg none) ++
      guarded mounted 0 (Mutation.setLoadingFlag true)) ++
    guarded mounted 1 (Mutation.setErrorMsg (some ("Failed to fetch Sei EVM events"))) ++
    guarded mounted 1 (Mutation.setLoadingFlag false)
  else if mounted 1 = false then
    guarded mounted 0 (Mutation.setErrorMsg none) ++
      guarded mounted 0 (Mutation.setLoadingFlag true)
  else if fetchOk = false then
    (guarded mounted 0 (Mutation.setErrorMsg none) ++
      guarded mounted 0 (Mutation.setLoadingFlag true)) ++
    guarded mounted (2 + inner)
      (Mutation.setErrorMsg (some ("Failed to fetch Sei EVM events"))) ++
    guarded mounted (2 + inner) (Mutation.setLoadingFlag false)
  else if mounted (2 + inner) = false then
    guarded mounted 0 (Mutation.setErrorMsg none) ++
      guarded mounted 0 (Mutation.setLoadingFlag true)
  else
    (guarded mounted 0 (Mutation.setErrorMsg none) ++
      guarded mounted 0 (Mutation.setLoadingFlag true)) ++
    [(2 + inner, Mutation.setEventsList (combinedDisplay d c))] ++
    guarded mounted (2 + inner) (Mutation.setLoadingFlag false)

/-- The mutations executed by one `fetchRollEvents` cycle (`part_001`
lines 60-162), same conventions; here the code after the loops runs at
suspension count `1 + inner` and `setEvents` carries its own explicit
guard (line 145). -/
def playerCycleTrace (mounted : ℕ → Bool) (blockNumOk fetchOk : Bool)
    (inner : ℕ) (l : List RollEvent) : List (ℕ × Mutation) :=
  if blockNumOk = false then
    (guarded mounted 0 (Mutation.setErrorMsg none) ++
      guarded mounted 0 (Mutation.setLoadingFlag true)) ++
    guarded mounted 1 (Mutation.setErrorMsg (some ("Failed to fetch Sei EVM events"))) ++
    guarded mounted 1 (Mutation.setLoadingFlag false)
  else if mounted 1 = false then
    guarded mounted 0 (Mutation.setErrorMsg none) ++
      guarded mounted 0 (Mutation.setLoadingFlag true)
  else if fetchOk = false then
    (guarded mounted 0 (Mutation.setErrorMsg none) ++
      guarded mounted 0 (Mutation.setLoadingFlag true)) ++
    guarded mounted (1 + inner)
      (Mutation.setErrorMsg (some ("Failed to fetch Sei EVM events"))) ++
    guarded mounted (1 + inner) (Mutation.setLoadingFlag false)
  else
    (guarded mounted 0 (Mutation.setErrorMsg none) ++
      guarded mounted 0 (Mutation.setLoadingFlag true)) ++
    guarded mounted (1 + inner) (Mutation.setRollEventsList (playerDisplay l)) ++
    guarded mounted (1 + inner) (Mutation.setLoadingFlag false)

/-- A guarded mutation only runs while the flag holds. -/
lemma mem_guarded {mounted : ℕ → Bool} {t : ℕ} {m : Mutation} {p : ℕ × Mutation}
    (h : p ∈ guarded mounted t m) : mounted p.1 = true := by
  unfold guarded at h
  split at h
  · rename_i hm
    rcases List.mem_singleton.mp h with rfl
    exact hm
  · cases h

/-- Every mutation of a combined-view cycle runs while the flag holds. -/
lemma combinedCycleTrace_mounted (mounted : ℕ → Bool) (blockNumOk fetchOk : Bool)
    (inner : ℕ) (d c : List GameEvent) :
    ∀ p ∈ combinedCycleTrace mounted blockNumOk fetchOk inner d c,
      mounted p.1 = true := by
  intro p hp
  unfold combinedCycleTrace at hp
  split at hp
  · rcases List.mem_append.mp hp with h1 | h2
    · rcases List.mem_append.mp h1 with h3 | h4
      · rcases List.mem_append.mp h3 with h5 | h6
        · exact mem_guarded h5
        · exact mem_guarded h6
      · exact mem_guarded h4
    · exact mem_guarded h2
  · split at hp
    · rcases List.mem_append.mp hp with h1 | h2
      · exact mem_guarded h1
      · exact mem_guarded h2
    · split at hp
      · rcases List.mem_append.mp hp with h1 | h2
        · rcases List.mem_append.mp h1 with h3 | h4
          · rcases List.mem_append.mp h3 with h5 | h6
            · exact mem_guarded h5
            · exact mem_guarded h6
          · exact mem_guarded h4
        · exact mem_guarded h2
      · split at hp
        · rcases List.mem_append.mp hp with h1 | h2
          · exact mem_guarded h1
          · exact mem_guarded h2
        · rename_i hm2
          rcases List.mem_append.mp hp with h1 | h2
          · rcases List.mem_append.mp h1 with h3 | h4
            · rcases List.mem_append.mp h3 with h5 | h6
              · exact mem_guarded h5
              · exact mem_guarded h6
            · rcases List.mem_singleton.mp h4 with rfl
              exact Bool.not_eq_false _ ▸ eq_true_of_ne_false hm2
          · exact mem_guarded h2

/-- Every mutation of a player-view cycle runs while the flag holds. -/
lemma playerCycleTrace_mounted (mounted : ℕ → Bool) (blockNumOk fetchOk : Bool)
    (inner : ℕ) (l : List RollEvent) :
    ∀ p ∈ playerCycleTrace mounted blockNumOk fetchOk inner l,
      mounted p.1 = true := by
  intro p hp
  unfold playerCycleTrace at hp
  split at hp
  · rcases List.mem_append.mp hp with h1 | h2
    · rcases List.mem_append.mp h1 with h3 | h4
      · rcases List.mem_append.mp h3 with h5 | h6
        · exact mem_guarded h5
        · exact mem_guarded h6
      · exact mem_guarded h4
    · exact mem_guarded h2
  · split at hp
    · rcases List.mem_append.mp hp with h1 | h2
      · exact mem_guarded h1
      · exact mem_guarded h2
    · split at hp
      · rcases List.mem_append.mp hp with h1 | h2
        · rcases List.mem_append.mp h1 with h3 | h4
          · rcases List.mem_append.mp h3 with h5 | h6
            · exact mem_guarded h5
            · exact mem_guarded h6
          · exact mem_guarded h4
        · exact mem_guarded h2
      · rcases List.mem_append.mp hp with h1 | h2
        · rcases List.mem_append.mp h1 with h3 | h4
          · rcases List.mem_append.mp h3 with h5 | h6
            · exact mem_guarded h5
            · exact mem_guarded h6
          · exact mem_guarded h4
        · exact mem_guarded h2

/-- C9 (confirmed): a pending fetch cycle whose owning view was torn down
at suspension point `u` (the liveness flag reads true exactly at counts
below `u`) never publishes results or errors: every state mutation it
still performs carries a suspension count strictly below `u`.  In both
components every setter is dominated by a liveness check made after the
last suspension point preceding it (and the combined view's helper, whose
intermediate awaits carry no checks, performs no mutations), so nothing
is published after teardown. -/
theorem c9_unmounted_publishes_nothing (u : ℕ) (blockNumOk fetchOk : Bool)
    (inner : ℕ) (d c : List GameEvent) (l : List RollEvent) :
    (∀ p ∈ combinedCycleTrace (fun t => decide (t < u)) blockNumOk fetchOk inner d c,
        p.1 < u) ∧
    (∀ p ∈ playerCycleTrace (fun t => decide (t < u)) blockNumOk fetchOk inner l,
        p.1 < u) := by
  constructor
  · intro p hp
    exact of_decide_eq_true
      (combinedCycleTrace_mounted (fun t => decide (t < u)) blockNumOk fetchOk inner d c p hp)
  · intro p hp
    exact of_decide_eq_true
      (playerCycleTrace_mounted (fun t => decide (t < u)) blockNumOk fetchOk inner l p hp)

/-- Witness for `c9_unmounted_publishes_nothing`: at teardown point 1 the
initial guarded `setError(null)` of the combined view runs at count 0 < 1. -/
theorem c9_unmounted_publishes_nothing_witness :
    ((0 : ℕ), Mutation.setErrorMsg none) ∈
      combinedCycleTrace (fun t => decide (t < 1)) true true 0 [] [] ∧
    (0 : ℕ) < 1 := by
  have hm : ((0 : ℕ), Mutation.setErrorMsg none) ∈
      combinedCycleTrace (fun t => decide (t < 1)) true true 0 [] [] := by decide
  exact ⟨hm, (c9_unmounted_publishes_nothing 1 true true 0 [] [] []).1 _ hm⟩
